import Mathlib

/-!
# SalesService: the `lookup` action and the CREATE/UPDATE hook on `SalesRules`

A shallow embedding of `srv/sales-service.js`.

* JavaScript values that reach the two handlers are `undefined`, `null` or a
  string (the data model declares every field of a rule and of a lookup
  request as a string).
* The handlers are written as pure functions with explicit state: the
  database is a value that goes in and comes out.  An exception thrown by a
  handler is an outcome of its own.
* `String.prototype.toUpperCase` maps each code point on its own.  ASCII is
  spelled out; the Unicode table above U+007F is the parameter `uni`.
-/

namespace SalesService

/-! ## JavaScript values -/

/-- A JavaScript value as the handlers see it. -/
inductive JsVal where
  | undefined
  | null
  | str (s : String)
  deriving DecidableEq, Repr

/-- JavaScript truthiness, the test behind `!v`, `if (v)` and `v || w`:
`undefined`, `null` and the empty string are falsy. -/
def truthy : JsVal → Bool
  | .undefined => false
  | .null => false
  | .str s => s != ""

/-- The JavaScript operator `a || b`. -/
def jsOr (a b : JsVal) : JsVal :=
  if truthy a then a else b

/-- String conversion of a value inside a template literal. -/
def toStr : JsVal → String
  | .undefined => "undefined"
  | .null => "null"
  | .str s => s

/-- Upper case of one code point.  Below U+0080 only `a`..`z` change; the
mapping of every other code point is read from the table `uni`. -/
def upperChar (uni : Char → List Char) (c : Char) : List Char :=
  if c.val < 128 then [c.toUpper] else uni c

/-- `String.prototype.toUpperCase`: every code point is replaced by its upper
case, which may be several code points long. -/
def toUpperCase (uni : Char → List Char) (s : String) : String :=
  ⟨s.data.flatMap (upperChar uni)⟩

/-- A table that leaves every code point above U+007F as it is; used where a
concrete table is needed to evaluate an example. -/
def plainTable : Char → List Char :=
  fun c => [c]

/-- The method call `v.toUpperCase()`: a `TypeError` on `undefined` and
`null`, which have no such method. -/
def callToUpperCase (uni : Char → List Char) : JsVal → Except String JsVal
  | .str s => .ok (.str (toUpperCase uni s))
  | .null => .error "TypeError: Cannot read properties of null"
  | .undefined => .error "TypeError: Cannot read properties of undefined"

/-! ## Data model -/

/-- Modelled from the spec: the `SalesRules` entity, whose declaration is not
among the sources.  A stored row has the four columns of section 3 and
whatever other columns the entity declares; a column holds a string or SQL
`NULL` (`none`). -/
structure SalesRule where
  country : Option String
  region : Option String
  salesOrg : Option String
  salesRepEmail : Option String
  other : List (String × Option String)
  deriving DecidableEq, Repr

/-- An object with the properties `country` and `region`, the value the
`request` parameter of the `lookup` action is meant to carry. -/
structure LookupRequest where
  country : JsVal
  region : JsVal
  deriving DecidableEq, Repr

/-- The property `req.data.request` as the handler finds it: absent
(`undefined`, as with the body `{}`), `null`, or an object. -/
inductive RequestParam where
  | undefined
  | null
  | obj (request : LookupRequest)
  deriving DecidableEq, Repr

/-- The object returned by `lookup` on success: `salesOrg` and
`salesRepEmail`, nothing else. -/
structure LookupResponse where
  salesOrg : Option String
  salesRepEmail : Option String
  deriving DecidableEq, Repr

/-- What a `lookup` call ends with: the returned object, the error
registered with `req.error(status, message)`, or an exception thrown by the
handler itself. -/
inductive Outcome where
  | ok (response : LookupResponse)
  | error (status : Nat) (message : String)
  | thrown (exception : String)
  deriving DecidableEq, Repr

/-- The object `req.data` of a CREATE or UPDATE request on `SalesRules`:
each property is absent (`undefined`), `null` or a string. -/
structure RuleData where
  country : JsVal
  region : JsVal
  salesOrg : JsVal
  salesRepEmail : JsVal
  other : List (String × JsVal)
  deriving DecidableEq, Repr

/-! ## Persistence -/

/-- The object handed to `.where(...)`. -/
structure Where where
  country : JsVal
  region : JsVal
  deriving DecidableEq, Repr

/-- The database: the rows of `SalesRules` in storage order, and the queries
executed against the table so far. -/
structure Db where
  rules : List SalesRule
  issued : List Where
  deriving DecidableEq, Repr

/-- Modelled from the spec: one `column: value` entry of a where object, the
"exact field-value" match of section 6.  A string matches the same string, a
`null` value matches SQL `NULL`. -/
def whereEq (col : Option String) : JsVal → Bool
  | .str s => col == some s
  | _ => col.isNone

/-- A row satisfies a where object when every entry matches. -/
def satisfies (w : Where) (row : SalesRule) : Bool :=
  whereEq row.country w.country && whereEq row.region w.region

/-- Modelled from the spec: `SELECT.one.from(SalesRules).where(w)`, the
persistence primitive "select one record matching an exact field-value
mapping".  It gives the first matching row in storage order, or nothing, and
it is recorded as executed. -/
def selectOne (w : Where) (db : Db) : Option SalesRule × Db :=
  (db.rules.find? (satisfies w), { db with issued := db.issued ++ [w] })

/-! ## The `lookup` action -/

/-- The text of the 404 error. -/
def notFoundMessage (country region : JsVal) : String :=
  "No sales rule found for country=\"" ++ toStr country ++ "\", region=\""
    ++ toStr (jsOr region (.str "null")) ++ "\""

/-- The handler registered with `this.on('lookup', ...)`.  Its first
statement, `const { country, region } = req.data.request`, throws a
`TypeError` when `req.data.request` is `undefined` or `null`; nothing in the
handler catches it. -/
def lookup (request : RequestParam) (db : Db) : Outcome × Db :=
  match request with
  | .undefined => (.thrown "TypeError", db)
  | .null => (.thrown "TypeError", db)
  | .obj request =>
    let country := request.country
    let region := request.region
    if !truthy country then
      (.error 400 "Country code is required", db)
    else
      let (rule, db1) := selectOne { country := country, region := jsOr region .null } db
      match rule with
      | none => (.error 404 (notFoundMessage country region), db1)
      | some rule =>
        (.ok { salesOrg := rule.salesOrg, salesRepEmail := rule.salesRepEmail }, db1)

/-! ## The CREATE/UPDATE hook -/

/-- The handler registered with
`this.before(['CREATE', 'UPDATE'], 'SalesRules', ...)`: the request data
after the handler, or the exception it threw. -/
def beforeCreateUpdate (uni : Char → List Char) (data : RuleData) : Except String RuleData :=
  if truthy data.country then
    match callToUpperCase uni data.country with
    | .ok v => .ok { data with country := v }
    | .error e => .error e
  else
    .ok data

/-- Modelled from the spec: the generic persistence of the framework.  The
value a column takes when a row is inserted: an absent property and `null`
both give `NULL`. -/
def toColumn : JsVal → Option String
  | .str s => some s
  | _ => none

/-- Modelled from the spec: the generic persistence of the framework.  The
value a column takes when a row is updated: an absent property leaves the
column alone (section 8: "omitting `country` in an update leaves the stored
value unchanged"). -/
def patchColumn (old : Option String) : JsVal → Option String
  | .undefined => old
  | .null => none
  | .str s => some s

/-- Modelled from the spec: the generic persistence of the framework.  The
row inserted for request data. -/
def toRow (data : RuleData) : SalesRule :=
  { country := toColumn data.country
    region := toColumn data.region
    salesOrg := toColumn data.salesOrg
    salesRepEmail := toColumn data.salesRepEmail
    other := data.other.map fun kv => (kv.1, toColumn kv.2) }

/-- Modelled from the spec: the generic persistence of the framework.  A row
after request data has been written over it. -/
def patchRow (data : RuleData) (row : SalesRule) : SalesRule :=
  { country := patchColumn row.country data.country
    region := patchColumn row.region data.region
    salesOrg := patchColumn row.salesOrg data.salesOrg
    salesRepEmail := patchColumn row.salesRepEmail data.salesRepEmail
    other := row.other.map fun kv =>
      (kv.1, patchColumn kv.2 ((data.other.lookup kv.1).getD .undefined)) }

/-- Modelled from the spec: the generic CREATE of the framework, with the
hook in front of it (section 3: the hook runs "immediately before a create or
update is persisted").  The row built from the normalized data is appended. -/
def create (uni : Char → List Char) (data : RuleData) (db : Db) : Except String Db :=
  match beforeCreateUpdate uni data with
  | .ok data1 => .ok { db with rules := db.rules ++ [toRow data1] }
  | .error e => .error e

/-- Modelled from the spec: the generic UPDATE of the framework, with the
hook in front of it.  The row at position `target` takes the properties that
the normalized data carries. -/
def update (uni : Char → List Char) (target : Nat) (data : RuleData) (db : Db) : Except String Db :=
  match beforeCreateUpdate uni data with
  | .ok data1 => .ok { db with rules := db.rules.modify (patchRow data1) target }
  | .error e => .error e

/-- The `country` column of every row, in storage order. -/
def countries (db : Db) : List (Option String) :=
  db.rules.map (·.country)

/-- The invariant of section 3: no two rows share a `(country, region)`
pair. -/
def UniqueKeys (rules : List SalesRule) : Prop :=
  rules.Pairwise fun a b => ¬ (a.country = b.country ∧ a.region = b.region)

instance (rules : List SalesRule) : Decidable (UniqueKeys rules) := by
  unfold UniqueKeys
  infer_instance

/-! ## Shared lemmas -/

theorem truthy_str (s : String) : truthy (.str s) = true ↔ s ≠ "" := by
  simp [truthy]

theorem truthy_false_iff (v : JsVal) :
    truthy v = false ↔ v = .undefined ∨ v = .null ∨ v = .str "" := by
  cases v <;> simp [truthy]

theorem whereEq_iff (col : Option String) (v : JsVal) :
    whereEq col v = true ↔ col = toColumn v := by
  cases v <;> simp [whereEq, toColumn, Option.isNone_iff_eq_none]

theorem satisfies_iff (c : String) (r : JsVal) (row : SalesRule) :
    satisfies { country := .str c, region := r } row = true ↔
      row.country = some c ∧ row.region = toColumn r := by
  simp [satisfies, whereEq_iff, toColumn]

theorem lookup_falsy (request : LookupRequest) (db : Db) (h : truthy request.country = false) :
    lookup (.obj request) db = (.error 400 "Country code is required", db) := by
  simp [lookup, h]

theorem lookup_none (request : LookupRequest) (db : Db) (h : truthy request.country = true)
    (hfind : db.rules.find?
      (satisfies { country := request.country, region := jsOr request.region .null }) = none) :
    lookup (.obj request) db =
      (.error 404 (notFoundMessage request.country request.region),
        { db with issued := db.issued ++
          [{ country := request.country, region := jsOr request.region .null }] }) := by
  simp [lookup, h, selectOne, hfind]

theorem lookup_some (request : LookupRequest) (db : Db) (rule : SalesRule)
    (h : truthy request.country = true)
    (hfind : db.rules.find?
      (satisfies { country := request.country, region := jsOr request.region .null }) = some rule) :
    lookup (.obj request) db =
      (.ok { salesOrg := rule.salesOrg, salesRepEmail := rule.salesRepEmail },
        { db with issued := db.issued ++
          [{ country := request.country, region := jsOr request.region .null }] }) := by
  simp [lookup, h, selectOne, hfind]

theorem find_satisfies_none (c : String) (r : JsVal) (rules : List SalesRule) :
    rules.find? (satisfies { country := .str c, region := r }) = none ↔
      ¬ ∃ rule ∈ rules, rule.country = some c ∧ rule.region = toColumn r := by
  simp [List.find?_eq_none, satisfies_iff]

theorem find_satisfies_some (c : String) (r : JsVal) (rules : List SalesRule) (rule : SalesRule)
    (h : rules.find? (satisfies { country := .str c, region := r }) = some rule) :
    rule ∈ rules ∧ rule.country = some c ∧ rule.region = toColumn r :=
  ⟨List.mem_of_find?_eq_some h, (satisfies_iff c r rule).1 (List.find?_some h)⟩

/-! ## The `lookup` action: validation and frame -/

/-- For a `request` parameter that is an object, `lookup` ends with the error
400 "Country code is required" exactly when its country is `undefined`,
`null` or the empty string; no query is then added to those executed; and
for a non-empty country the outcome is not an error 400. -/
theorem lookup_obj_bad_request_iff (request : LookupRequest) (db : Db) :
    ((lookup (.obj request) db).1 = .error 400 "Country code is required" ↔
        (request.country = .undefined ∨ request.country = .null ∨ request.country = .str "")) ∧
    ((request.country = .undefined ∨ request.country = .null ∨ request.country = .str "") →
        (lookup (.obj request) db).2.issued = db.issued) ∧
    (¬ (request.country = .undefined ∨ request.country = .null ∨ request.country = .str "") →
        ∀ message, (lookup (.obj request) db).1 ≠ .error 400 message) := by
  rw [← truthy_false_iff]
  cases h : truthy request.country
  · simp [lookup_falsy request db h]
  · cases hfind : db.rules.find?
        (satisfies { country := request.country, region := jsOr request.region .null }) with
    | none => simp [lookup_none request db h hfind]
    | some rule => simp [lookup_some request db rule h hfind]

/-- Whatever is passed as `request`, `lookup` leaves the rows of `SalesRules`
as they were, and it ends in one of four ways: a returned object, the error
400, the error 404, or the `TypeError` of the destructuring, the last exactly
when the parameter is `undefined` or `null`. -/
theorem lookup_rules_unchanged (request : RequestParam) (db : Db) :
    (lookup request db).2.rules = db.rules ∧
    ((∃ response, (lookup request db).1 = .ok response) ∨
      (lookup request db).1 = .error 400 "Country code is required" ∨
      (∃ message, (lookup request db).1 = .error 404 message) ∨
      (lookup request db).1 = .thrown "TypeError") ∧
    ((lookup request db).1 = .thrown "TypeError" ↔
      (request = .undefined ∨ request = .null)) := by
  cases request with
  | undefined => simp [lookup]
  | null => simp [lookup]
  | obj request =>
    cases h : truthy request.country
    · simp [lookup_falsy request db h]
    · cases hfind : db.rules.find?
          (satisfies { country := request.country, region := jsOr request.region .null }) with
      | none => simp [lookup_none request db h hfind]
      | some rule => simp [lookup_some request db rule h hfind]

/-- C1, the code at the failing input: the body `{}` carries no `request`, so
no country, and `lookup` does not end with the error 400 "Country code is
required"; the destructuring throws a `TypeError` before the guard is
reached.  The same happens when `request` is `null`.  No query is executed
in either case. -/
theorem lookup_absent_request_not_bad_request :
    (lookup .undefined ⟨[], []⟩).1 = .thrown "TypeError" ∧
    (lookup .undefined ⟨[], []⟩).1 ≠ .error 400 "Country code is required" ∧
    (lookup .null ⟨[], []⟩).1 = .thrown "TypeError" ∧
    (lookup .null ⟨[], []⟩).1 ≠ .error 400 "Country code is required" ∧
    (lookup .undefined ⟨[], []⟩).2.issued = [] ∧
    (lookup .null ⟨[], []⟩).2.issued = [] := by
  decide

/-- C7, the code at the failing input: with the `request` parameter absent
and one rule stored, `lookup` ends with a thrown `TypeError`, which is
neither a returned object nor the error 400 nor the error 404; the stored
rows are unchanged. -/
theorem lookup_absent_request_fourth_outcome :
    (lookup .undefined ⟨[⟨some "FR", none, some "S1", some "a@x.com", []⟩], []⟩).1
      = .thrown "TypeError" ∧
    (¬ ∃ response,
      (lookup .undefined ⟨[⟨some "FR", none, some "S1", some "a@x.com", []⟩], []⟩).1
        = .ok response) ∧
    (¬ ∃ status message,
      (lookup .undefined ⟨[⟨some "FR", none, some "S1", some "a@x.com", []⟩], []⟩).1
        = .error status message) ∧
    (lookup .undefined ⟨[⟨some "FR", none, some "S1", some "a@x.com", []⟩], []⟩).2.rules
      = [⟨some "FR", none, some "S1", some "a@x.com", []⟩] := by
  refine ⟨rfl, ?_, ?_, rfl⟩ <;> simp [lookup]

/-! ## The `lookup` action: the match on country and region -/

/-- For every region but the empty string, the column value that
`region || null` asks for is the region as given (`NULL` for `undefined` and
`null`). -/
theorem toColumn_jsOr_null (r : JsVal) (h : r ≠ .str "") :
    toColumn (jsOr r .null) = toColumn r := by
  cases r with
  | undefined => rfl
  | null => rfl
  | str s =>
    have hs : s ≠ "" := fun hs => h (by rw [hs])
    simp [jsOr, truthy, hs]

/-- C2, the code at the failing input: the store holds a rule with country
"FR" and region "", the very pair that is asked for, and `lookup("FR", "")`
ends with the error 404, because `region || null` makes the query with
region `null`. -/
theorem lookup_stored_empty_region_not_found :
    (lookup (.obj ⟨.str "FR", .str ""⟩)
        ⟨[⟨some "FR", some "", some "S1", some "a@x.com", []⟩], []⟩).1
      = .error 404 "No sales rule found for country=\"FR\", region=\"null\"" ∧
    (lookup (.obj ⟨.str "FR", .str ""⟩)
        ⟨[⟨some "FR", some "", some "S1", some "a@x.com", []⟩], []⟩).2.issued
      = [⟨.str "FR", .null⟩] := by
  decide

/-- For a non-empty country `c`, when the store holds a rule whose country is
`c` and whose region is the column value of `region || null`, `lookup(c, r)`
returns the `salesOrg` and `salesRepEmail` of a stored rule with that country
and that region. -/
theorem lookup_found (c : String) (r : JsVal) (db : Db) (hc : c ≠ "")
    (h : ∃ rule ∈ db.rules, rule.country = some c ∧ rule.region = toColumn (jsOr r .null)) :
    ∃ rule ∈ db.rules, rule.country = some c ∧ rule.region = toColumn (jsOr r .null) ∧
      (lookup (.obj ⟨.str c, r⟩) db).1
        = .ok { salesOrg := rule.salesOrg, salesRepEmail := rule.salesRepEmail } := by
  have ht : truthy (LookupRequest.mk (.str c) r).country = true := (truthy_str c).2 hc
  cases hfind : db.rules.find? (satisfies { country := .str c, region := jsOr r .null }) with
  | none => exact absurd h ((find_satisfies_none c _ db.rules).1 hfind)
  | some rule =>
    obtain ⟨hmem, hcountry, hregion⟩ := find_satisfies_some c _ db.rules rule hfind
    exact ⟨rule, hmem, hcountry, hregion, by rw [lookup_some _ db rule ht hfind]⟩

theorem notFoundMessage_data (country region : JsVal) :
    (notFoundMessage country region).data =
      "No sales rule found for country=\"".data ++ (toStr country).data ++
        "\", region=\"".data ++ (toStr (jsOr region (.str "null"))).data ++ "\"".data := by
  simp [notFoundMessage, String.data_append]

/-- C3, the code at the failing input: the store holds no rule with country
"FR" and region "", yet `lookup("FR", "")` does not end with the error 404;
it returns the rule whose region is `NULL`. -/
theorem lookup_empty_region_no_exact_rule_found :
    (∀ rule ∈ [(⟨some "FR", none, some "S1", some "a@x.com", []⟩ : SalesRule)],
      ¬ (rule.country = some "FR" ∧ rule.region = some "")) ∧
    (lookup (.obj ⟨.str "FR", .str ""⟩)
        ⟨[⟨some "FR", none, some "S1", some "a@x.com", []⟩], []⟩).1
      = .ok { salesOrg := some "S1", salesRepEmail := some "a@x.com" } := by
  decide

/-- For a non-empty country `c`, `lookup(c, r)` ends with the error 404
exactly when no stored rule has country `c` and the column value of
`region || null` as its region; the message of an error 404 is the one built
from the request, and it contains `c` and the text of `region || 'null'`. -/
theorem lookup_not_found_iff (c : String) (r : JsVal) (db : Db) (hc : c ≠ "") :
    ((lookup (.obj ⟨.str c, r⟩) db).1 = .error 404 (notFoundMessage (.str c) r) ↔
      ¬ ∃ rule ∈ db.rules, rule.country = some c ∧ rule.region = toColumn (jsOr r .null)) ∧
    (∀ message, (lookup (.obj ⟨.str c, r⟩) db).1 = .error 404 message →
      message = notFoundMessage (.str c) r) ∧
    c.data <:+: (notFoundMessage (.str c) r).data ∧
    (toStr (jsOr r (.str "null"))).data <:+: (notFoundMessage (.str c) r).data := by
  have ht : truthy (LookupRequest.mk (.str c) r).country = true := (truthy_str c).2 hc
  refine ⟨?_, ?_, ?_, ?_⟩
  · rw [← find_satisfies_none]
    cases hfind : db.rules.find? (satisfies { country := .str c, region := jsOr r .null }) with
    | none => simp [lookup_none _ db ht hfind]
    | some rule => simp [lookup_some _ db rule ht hfind]
  · intro message
    cases hfind : db.rules.find? (satisfies { country := .str c, region := jsOr r .null }) with
    | none =>
      rw [lookup_none _ db ht hfind]
      intro h
      injection h with _ hm
      exact hm.symm
    | some rule => simp [lookup_some _ db rule ht hfind]
  · rw [notFoundMessage_data]
    exact ⟨"No sales rule found for country=\"".data,
      "\", region=\"".data ++ (toStr (jsOr r (.str "null"))).data ++ "\"".data,
      by simp only [toStr, List.append_assoc]⟩
  · rw [notFoundMessage_data]
    exact ⟨_, _, rfl⟩

/-- C4, the code at the failing input: the only rule for "DE" has region
`NULL`, and `lookup("DE", "")` returns that rule, exactly as
`lookup("DE", undefined)` does; it does not end with the error 404. -/
theorem lookup_empty_region_returns_null_rule :
    (lookup (.obj ⟨.str "DE", .str ""⟩)
        ⟨[⟨some "DE", none, some "S2", some "b@x.com", []⟩], []⟩).1
      = .ok { salesOrg := some "S2", salesRepEmail := some "b@x.com" } ∧
    (lookup (.obj ⟨.str "DE", .str ""⟩)
        ⟨[⟨some "DE", none, some "S2", some "b@x.com", []⟩], []⟩).1
      = (lookup (.obj ⟨.str "DE", .undefined⟩)
        ⟨[⟨some "DE", none, some "S2", some "b@x.com", []⟩], []⟩).1 := by
  decide

/-! ## The CREATE/UPDATE hook: lemmas -/

theorem toUpper_ascii_table :
    ∀ n : Fin 128, (Char.ofNat n.val).toUpper.val < 128 ∧
      (Char.ofNat n.val).toUpper.toUpper = (Char.ofNat n.val).toUpper := by
  decide

theorem toUpper_ascii (c : Char) (h : c.val < 128) :
    c.toUpper.val < 128 ∧ c.toUpper.toUpper = c.toUpper := by
  have hn : c.toNat < 128 := h
  have := toUpper_ascii_table ⟨c.toNat, hn⟩
  simpa using this

theorem upperChar_idem (uni : Char → List Char)
    (huni : ∀ c : Char, 128 ≤ c.val → (uni c).flatMap (upperChar uni) = uni c) (c : Char) :
    (upperChar uni c).flatMap (upperChar uni) = upperChar uni c := by
  by_cases h : c.val < 128
  · obtain ⟨h1, h2⟩ := toUpper_ascii c h
    simp [upperChar, h, h1, h2]
  · simp only [upperChar, h, if_false]
    simpa [upperChar] using huni c (by simpa using h)

theorem flatMap_idem (f : Char → List Char) (hf : ∀ c, (f c).flatMap f = f c) (l : List Char) :
    (l.flatMap f).flatMap f = l.flatMap f := by
  induction l with
  | nil => rfl
  | cons c l ih => simp [List.flatMap_cons, List.flatMap_append, hf, ih]

theorem toUpperCase_idem (uni : Char → List Char)
    (huni : ∀ c : Char, 128 ≤ c.val → (uni c).flatMap (upperChar uni) = uni c) (s : String) :
    toUpperCase uni (toUpperCase uni s) = toUpperCase uni s := by
  simp only [toUpperCase]
  rw [flatMap_idem _ (upperChar_idem uni huni)]

theorem toUpperCase_empty (uni : Char → List Char) : toUpperCase uni "" = "" := rfl

theorem hook_falsy (uni : Char → List Char) (data : RuleData) (h : truthy data.country = false) :
    beforeCreateUpdate uni data = .ok data := by
  simp [beforeCreateUpdate, h]

theorem hook_str (uni : Char → List Char) (data : RuleData) (s : String)
    (h : data.country = .str s) :
    beforeCreateUpdate uni data = .ok { data with country := .str (toUpperCase uni s) } := by
  by_cases hs : s = ""
  · subst hs
    rw [hook_falsy uni data (by rw [h]; rfl), toUpperCase_empty, ← h]
  · simp [beforeCreateUpdate, h, truthy, hs, callToUpperCase]

theorem hook_total (uni : Char → List Char) (data : RuleData) :
    ∃ data1, beforeCreateUpdate uni data = .ok data1 ∧
      data1.region = data.region ∧ data1.salesOrg = data.salesOrg ∧
      data1.salesRepEmail = data.salesRepEmail ∧ data1.other = data.other ∧
      (truthy data.country = false → data1 = data) := by
  cases h : data.country with
  | undefined => exact ⟨data, hook_falsy uni data (by rw [h]; rfl), rfl, rfl, rfl, rfl, fun _ => rfl⟩
  | null => exact ⟨data, hook_falsy uni data (by rw [h]; rfl), rfl, rfl, rfl, rfl, fun _ => rfl⟩
  | str s =>
    refine ⟨_, hook_str uni data s h, rfl, rfl, rfl, rfl, fun hf => ?_⟩
    have hs : s = "" := by simpa [truthy] using hf
    subst hs
    rw [toUpperCase_empty, ← h]

theorem map_country_modify_str (data : RuleData) (x : String) (h : data.country = .str x) :
    ∀ (n : Nat) (rules : List SalesRule),
      (rules.modify (patchRow data) n).map (·.country) = (rules.map (·.country)).set n (some x)
  | _, [] => by simp
  | 0, row :: rules => by simp [patchRow, patchColumn, h]
  | n + 1, row :: rules => by simp [map_country_modify_str data x h n rules]

theorem map_country_modify (data : RuleData) (h : data.country = .undefined) :
    ∀ (n : Nat) (rules : List SalesRule),
      (rules.modify (patchRow data) n).map (·.country) = rules.map (·.country)
  | _, [] => by simp
  | 0, row :: rules => by simp [patchRow, patchColumn, h]
  | n + 1, row :: rules => by simp [map_country_modify data h n rules]

/-! ## The CREATE/UPDATE hook: claims -/

/-- C5: when the request data carries a country `s`, the hook replaces it by
its upper case and touches nothing else; a CREATE on any store, the empty one
included, then persists a row whose country is the upper case of `s`; and an
UPDATE writes the upper case of `s` into the country of the row it
addresses, leaving the country of every other row. -/
theorem country_uppercased (uni : Char → List Char) (data : RuleData) (s : String) (db : Db)
    (target : Nat) (hcountry : data.country = .str s) :
    beforeCreateUpdate uni data = .ok { data with country := .str (toUpperCase uni s) } ∧
    (∃ db1, create uni data db = .ok db1 ∧
      countries db1 = countries db ++ [some (toUpperCase uni s)]) ∧
    (∃ db1, update uni target data db = .ok db1 ∧
      countries db1 = (countries db).set target (some (toUpperCase uni s))) := by
  have hhook := hook_str uni data s hcountry
  refine ⟨hhook, ⟨_, by rw [create, hhook], ?_⟩, ⟨_, by rw [update, hhook], ?_⟩⟩
  · simp [countries, toRow, toColumn]
  · exact map_country_modify_str _ (toUpperCase uni s) rfl target db.rules

/-- C5, the examples of the specification: creating with country "fr" in an
empty store persists "FR"; updating the country of a stored rule to "de"
persists "DE". -/
theorem country_uppercased_witness :
    (∃ db1, create plainTable ⟨.str "fr", .null, .str "S1", .str "a@x.com", []⟩ ⟨[], []⟩
        = .ok db1 ∧
      countries db1 = [some "FR"]) ∧
    (∃ db1, update plainTable 0 ⟨.str "de", .undefined, .undefined, .undefined, []⟩
        ⟨[⟨some "FR", none, some "S1", some "a@x.com", []⟩], []⟩ = .ok db1 ∧
      countries db1 = [some "DE"]) :=
  ⟨(country_uppercased plainTable ⟨.str "fr", .null, .str "S1", .str "a@x.com", []⟩ "fr"
      ⟨[], []⟩ 0 rfl).2.1,
   (country_uppercased plainTable ⟨.str "de", .undefined, .undefined, .undefined, []⟩ "de"
      ⟨[⟨some "FR", none, some "S1", some "a@x.com", []⟩], []⟩ 0 rfl).2.2⟩

/-- C6: the hook never throws; the data it leaves has the region, salesOrg,
salesRepEmail and other properties it was given; data without a country
(and data whose country is `null` or empty) comes out as it went in; and an
UPDATE whose data has no country succeeds and leaves the country of every
stored row as it was. -/
theorem hook_frame (uni : Char → List Char) (data : RuleData) :
    ∃ data1, beforeCreateUpdate uni data = .ok data1 ∧
      data1.region = data.region ∧ data1.salesOrg = data.salesOrg ∧
      data1.salesRepEmail = data.salesRepEmail ∧ data1.other = data.other ∧
      (truthy data.country = false → data1 = data) ∧
      (data.country = .undefined → ∀ (target : Nat) (db : Db),
        ∃ db1, update uni target data db = .ok db1 ∧ countries db1 = countries db) := by
  obtain ⟨data1, hhook, h1, h2, h3, h4, h5⟩ := hook_total uni data
  refine ⟨data1, hhook, h1, h2, h3, h4, h5, fun hu target db => ?_⟩
  have hsame : data1 = data := h5 (by rw [hu]; rfl)
  subst hsame
  exact ⟨{ db with rules := db.rules.modify (patchRow data1) target }, by rw [update, hhook],
    map_country_modify data1 hu target db.rules⟩

/-- C6 on a concrete request: an UPDATE that changes only the region leaves
the stored country "FR" in place. -/
theorem hook_frame_witness :
    ∃ db1, update plainTable 0 ⟨.undefined, .str "EU", .undefined, .undefined, []⟩
        ⟨[⟨some "FR", none, some "S1", some "a@x.com", []⟩], []⟩ = .ok db1 ∧
      countries db1 = [some "FR"] := by
  obtain ⟨data1, -, -, -, -, -, -, h⟩ :=
    hook_frame plainTable ⟨.undefined, .str "EU", .undefined, .undefined, []⟩
  exact h rfl 0 ⟨[⟨some "FR", none, some "S1", some "a@x.com", []⟩], []⟩

/-- C10: the hook is idempotent, given that the table of upper cases above
U+007F is itself idempotent (the upper case of an upper case is that upper
case): the data the hook leaves is left unchanged by a second run. -/
theorem hook_idempotent (uni : Char → List Char)
    (huni : ∀ c : Char, 128 ≤ c.val → (uni c).flatMap (upperChar uni) = uni c)
    (data : RuleData) :
    ∃ data1, beforeCreateUpdate uni data = .ok data1 ∧
      beforeCreateUpdate uni data1 = .ok data1 := by
  cases h : data.country with
  | undefined =>
    exact ⟨data, hook_falsy uni data (by rw [h]; rfl), hook_falsy uni data (by rw [h]; rfl)⟩
  | null =>
    exact ⟨data, hook_falsy uni data (by rw [h]; rfl), hook_falsy uni data (by rw [h]; rfl)⟩
  | str s =>
    refine ⟨_, hook_str uni data s h, ?_⟩
    rw [hook_str uni { data with country := .str (toUpperCase uni s) } (toUpperCase uni s) rfl,
      toUpperCase_idem uni huni]

/-- C10 on a concrete request: the data with country "fr" becomes the data
with country "FR", and the hook leaves the latter as it is. -/
theorem hook_idempotent_witness :
    (∀ c : Char, 128 ≤ c.val → (plainTable c).flatMap (upperChar plainTable) = plainTable c) ∧
    ∃ data1, beforeCreateUpdate plainTable ⟨.str "fr", .null, .str "S1", .str "a@x.com", []⟩
        = .ok data1 ∧
      beforeCreateUpdate plainTable data1 = .ok data1 :=
  have hplain : ∀ c : Char, 128 ≤ c.val →
      (plainTable c).flatMap (upperChar plainTable) = plainTable c := by
    intro c hc
    have hlt : ¬ c.val < 128 := by simpa using hc
    simp [plainTable, upperChar, hlt]
  ⟨hplain, hook_idempotent plainTable hplain ⟨.str "fr", .null, .str "S1", .str "a@x.com", []⟩⟩

/-! ## `lookup` against stored, normalized rules -/

/-- C8: `lookup` compares the country as it is given.  In a store whose
countries are all in upper case, a non-empty country `c` that is not its own
upper case matches no rule, so `lookup(c, r)` ends with the error 404 for
every region `r`, whether or not a rule for the upper case of `c` is
stored. -/
theorem lookup_case_sensitive (uni : Char → List Char) (c : String) (r : JsVal) (db : Db)
    (hc : c ≠ "") (hup : toUpperCase uni c ≠ c)
    (hstore : ∀ rule ∈ db.rules, ∀ s, rule.country = some s → toUpperCase uni s = s) :
    (lookup (.obj ⟨.str c, r⟩) db).1 = .error 404 (notFoundMessage (.str c) r) := by
  have ht : truthy (LookupRequest.mk (.str c) r).country = true := (truthy_str c).2 hc
  have hnone : db.rules.find? (satisfies { country := .str c, region := jsOr r .null }) = none := by
    rw [find_satisfies_none]
    rintro ⟨rule, hmem, hcountry, -⟩
    exact hup (hstore rule hmem c hcountry)
  rw [lookup_none _ db ht hnone]

/-- C8, the example: a rule created with country "fr" and no region is
persisted with country "FR"; then `lookup("fr", undefined)` ends with the
error 404 and `lookup("FR", undefined)` returns the rule. -/
theorem lookup_case_sensitive_witness :
    create plainTable ⟨.str "fr", .undefined, .str "S1", .str "a@x.com", []⟩ ⟨[], []⟩
      = .ok ⟨[⟨some "FR", none, some "S1", some "a@x.com", []⟩], []⟩ ∧
    (lookup (.obj ⟨.str "fr", .undefined⟩)
        ⟨[⟨some "FR", none, some "S1", some "a@x.com", []⟩], []⟩).1
      = .error 404 (notFoundMessage (.str "fr") .undefined) ∧
    (lookup (.obj ⟨.str "FR", .undefined⟩)
        ⟨[⟨some "FR", none, some "S1", some "a@x.com", []⟩], []⟩).1
      = .ok { salesOrg := some "S1", salesRepEmail := some "a@x.com" } :=
  ⟨rfl,
   lookup_case_sensitive plainTable "fr" .undefined
      ⟨[⟨some "FR", none, some "S1", some "a@x.com", []⟩], []⟩ (by decide) (by decide)
      (by
        intro rule hmem s hs
        rw [List.mem_singleton.1 hmem] at hs
        injection hs with hs
        subst hs
        rfl),
   by decide⟩

/-! ## `lookup` and the order of the stored rules -/

theorem find_perm {p : SalesRule → Bool} {l₁ l₂ : List SalesRule} (hperm : l₁.Perm l₂)
    (hone : l₁.Pairwise fun a b => ¬ (p a = true ∧ p b = true)) :
    l₁.find? p = l₂.find? p := by
  induction hperm with
  | nil => rfl
  | cons x _ ih =>
    rw [List.find?_cons, List.find?_cons, ih (List.pairwise_cons.1 hone).2]
  | swap x y l =>
    have hxy : ¬ (p y = true ∧ p x = true) :=
      (List.pairwise_cons.1 hone).1 x (List.mem_cons_self x l)
    cases hx : p x <;> cases hy : p y <;> simp_all [List.find?_cons]
  | trans h₁ _ ih₁ ih₂ =>
    have hsymm : ∀ a b : SalesRule,
        ¬ (p a = true ∧ p b = true) → ¬ (p b = true ∧ p a = true) :=
      fun _ _ h hba => h ⟨hba.2, hba.1⟩
    rw [ih₁ hone, ih₂ ((h₁.pairwise_iff (fun {a b} => hsymm a b)).1 hone)]

theorem uniqueKeys_one_match (w : Where) (rules : List SalesRule) (h : UniqueKeys rules) :
    rules.Pairwise fun a b => ¬ (satisfies w a = true ∧ satisfies w b = true) := by
  refine List.Pairwise.imp ?_ h
  intro a b hab hsat
  apply hab
  simp only [satisfies, Bool.and_eq_true, whereEq_iff] at hsat
  exact ⟨hsat.1.1.trans hsat.2.1.symm, hsat.1.2.trans hsat.2.2.symm⟩

/-- C9: if no two stored rules share a (country, region) pair, two stores
holding the same rules in any order give the same outcome of `lookup` for
every request; without that invariant there are two stores holding the same
rules in a different order for which `lookup` returns different objects. -/
theorem lookup_order_independent :
    (∀ (request : RequestParam) (db₁ db₂ : Db), UniqueKeys db₁.rules →
      db₁.rules.Perm db₂.rules → (lookup request db₁).1 = (lookup request db₂).1) ∧
    (∃ (request : RequestParam) (db₁ db₂ : Db) (a b : LookupResponse),
      db₁.rules.Perm db₂.rules ∧ (lookup request db₁).1 = .ok a ∧
      (lookup request db₂).1 = .ok b ∧ a ≠ b) := by
  constructor
  · intro request db₁ db₂ hunique hperm
    cases request with
    | undefined => rfl
    | null => rfl
    | obj request =>
    cases ht : truthy request.country
    · rw [lookup_falsy request db₁ ht, lookup_falsy request db₂ ht]
    · have hfind := find_perm hperm (uniqueKeys_one_match
        { country := request.country, region := jsOr request.region .null } db₁.rules hunique)
      cases h₂ : db₂.rules.find?
          (satisfies { country := request.country, region := jsOr request.region .null }) with
      | none => rw [lookup_none request db₁ ht (hfind.trans h₂), lookup_none request db₂ ht h₂]
      | some rule =>
        rw [lookup_some request db₁ rule ht (hfind.trans h₂), lookup_some request db₂ rule ht h₂]
  · exact ⟨.obj ⟨.str "FR", .undefined⟩,
      ⟨[⟨some "FR", none, some "S1", some "a@x.com", []⟩,
        ⟨some "FR", none, some "S2", some "b@x.com", []⟩], []⟩,
      ⟨[⟨some "FR", none, some "S2", some "b@x.com", []⟩,
        ⟨some "FR", none, some "S1", some "a@x.com", []⟩], []⟩,
      ⟨some "S1", some "a@x.com"⟩, ⟨some "S2", some "b@x.com"⟩,
      List.Perm.swap _ _ _, by decide, by decide, by decide⟩

/-- C9 on concrete stores: the rules (FR, null) and (FR, EU), stored in
either order, give the same outcome for `lookup("FR", "EU")`. -/
theorem lookup_order_independent_witness :
    (lookup (.obj ⟨.str "FR", .str "EU"⟩)
        ⟨[⟨some "FR", none, some "S1", some "a@x.com", []⟩,
          ⟨some "FR", some "EU", some "S2", some "b@x.com", []⟩], []⟩).1
      = (lookup (.obj ⟨.str "FR", .str "EU"⟩)
        ⟨[⟨some "FR", some "EU", some "S2", some "b@x.com", []⟩,
          ⟨some "FR", none, some "S1", some "a@x.com", []⟩], []⟩).1 :=
  lookup_order_independent.1 (.obj ⟨.str "FR", .str "EU"⟩)
    ⟨[⟨some "FR", none, some "S1", some "a@x.com", []⟩,
      ⟨some "FR", some "EU", some "S2", some "b@x.com", []⟩], []⟩
    ⟨[⟨some "FR", some "EU", some "S2", some "b@x.com", []⟩,
      ⟨some "FR", none, some "S1", some "a@x.com", []⟩], []⟩
    (by decide) (List.Perm.swap _ _ _)

end SalesService
